import Mathlib

/-!
Verification development for the network-telemetry-aggregator service.

The embedding follows the two source modules:

* `aggregator_utils.py` — the CSV parser `parse_csv_data` and the
  `retry_with_backoff` decorator;
* `aggregator_server.py` — the `AggregatorStore` (RCU store plus metrics),
  the decorated `fetch_and_parse_telemetry`, the background `ingestion_task`,
  and the read endpoints `health_check`, `list_metrics`, `get_metric`.

Modelling scope:

* Python strings are modelled as `List Char` internally, with `String` at the
  API boundary.  Python `str.strip` (the 29 code points with `str.isspace`
  true) and `str.replace` (left-to-right, non-overlapping) are reproduced
  exactly.
* The `csv` module is modelled by the record tokenizer of CPython
  Modules/_csv.c on the default dialect (delimiter comma, quotechar double
  quote, doublequote on, no escapechar, non-strict), fed by `StringIO` with
  its default newline handling.  The model returns both the records
  completed before any `csv.Error` and a flag saying whether the iteration
  ends by raising `csv.Error` — the reader is a lazy iterator, so records
  before the failing one are already consumed by the row loop.
* `csv.Error` is not a `ValueError`: it escapes the except-ValueError
  handler inside the fetch body and is retried by the catch-all decorator
  like a network failure.
* Wall-clock latencies, timestamps and the float-valued gauges are not
  modelled (floating point and real time); backoff delays are recorded
  symbolically as naturals `base * 2 ^ k`.
* Network and scheduling nondeterminism is an explicit environment: each
  attempt of a cycle either raises a NetworkError-class exception or returns
  a payload body.
-/

set_option maxRecDepth 8000

namespace TelemetryAggregator

/-! ### Parser (`aggregator_utils.py`, `parse_csv_data`) -/

/-- The failure kinds of `parse_csv_data`: the two ValueError variants the
function raises itself — `schemaError` for "CSV missing required switch_id
column." and `rowShapeError` for "Row has an incorrect number of fields." —
and `csvError` for a `csv.Error` escaping from the `csv.reader` iteration
(e.g. a bare carriage return followed by more data in an unquoted field:
"new-line character seen in unquoted field").  `csv.Error` is not a
`ValueError`, so the except-ValueError handler in the caller does not catch
it. -/
inductive ParseError where
  | schemaError
  | rowShapeError
  | csvError
deriving DecidableEq, Repr

/-- The characters stripped by Python `str.strip()`: every code point with
`str.isspace()` true (Unicode whitespace plus the ASCII separators
U+001C to U+001F and U+0085). -/
def pythonIsSpace (c : Char) : Bool :=
  ([0x9, 0xa, 0xb, 0xc, 0xd, 0x1c, 0x1d, 0x1e, 0x1f, 0x20, 0x85,
    0xa0, 0x1680, 0x2000, 0x2001, 0x2002, 0x2003, 0x2004, 0x2005, 0x2006,
    0x2007, 0x2008, 0x2009, 0x200a, 0x2028, 0x2029, 0x202f, 0x205f,
    0x3000] : List Nat).contains c.toNat

/-- Python `str.strip()` on a character list. -/
def stripChars (l : List Char) : List Char :=
  ((l.dropWhile pythonIsSpace).reverse.dropWhile pythonIsSpace).reverse

/-- Python `str.replace(pat, rep)` — leftmost, non-overlapping — on character
lists, with explicit fuel (one unit per input character suffices for the
non-empty patterns used here). -/
def replaceCharsAux (pat rep : List Char) : Nat → List Char → List Char
  | 0, l => l
  | _ + 1, [] => []
  | fuel + 1, c :: cs =>
    if (c :: cs).take pat.length = pat then
      rep ++ replaceCharsAux pat rep fuel ((c :: cs).drop pat.length)
    else
      c :: replaceCharsAux pat rep fuel cs

/-- Python `str.replace` wrapper choosing the fuel. -/
def replaceChars (pat rep l : List Char) : List Char :=
  replaceCharsAux pat rep l.length l

/-- The normalization prelude of `parse_csv_data`:
`.replace("\\r\\n", "\n").replace("\\n", "\n").replace("\\r", "")` —
the patterns are the literal two-character escape sequences, the
replacements a real newline and the empty string. -/
def normalizeChars (l : List Char) : List Char :=
  replaceChars "\\r".toList []
    (replaceChars "\\n".toList ['\n']
      (replaceChars "\\r\\n".toList ['\n'] l))

/-- The parser states of the `csv.reader` record tokenizer (the state
machine of CPython Modules/_csv.c, default dialect: delimiter comma,
quotechar double quote, doublequote on, no escapechar, non-strict).
`StringIO` with its default newline feeds the reader lines split at
line-feed characters, so a line-feed always ends a record in the unquoted
states, while `eatCrnl` is the state entered after a carriage return,
eating CR and LF; any other character there raises `csv.Error`. -/
inductive CsvState where
  | startRecord
  | startField
  | inField
  | inQuotedField
  | quoteInQuotedField
  | eatCrnl
deriving DecidableEq, Repr

/-- The `csv.reader` tokenizer run over the whole normalized text:
`field` is the field under construction, `fields` the fields of the record
under construction, `recs` the records completed so far.  The result is
the list of records completed before any `csv.Error`, and whether the
iteration ends by raising `csv.Error` (the record under construction at
the error is never yielded — the reader is an iterator, so records before
the failing one have already been consumed by the caller). -/
def csvParseAux (state : CsvState) (field : List Char)
    (fields : List (List Char)) (recs : List (List (List Char))) :
    List Char → List (List (List Char)) × Bool
  | [] =>
    match state with
    | .startRecord => (recs, false)
    | .startField => (recs ++ [fields ++ [[]]], false)
    | .inField => (recs ++ [fields ++ [field]], false)
    | .inQuotedField => (recs ++ [fields ++ [field]], false)
    | .quoteInQuotedField => (recs ++ [fields ++ [field]], false)
    | .eatCrnl => (recs ++ [fields], false)
  | c :: cs =>
    match state with
    | .startRecord =>
      if c = '\n' then csvParseAux .startRecord [] [] (recs ++ [[]]) cs
      else if c = '\r' then csvParseAux .eatCrnl [] [] recs cs
      else if c = '"' then csvParseAux .inQuotedField [] [] recs cs
      else if c = ',' then csvParseAux .startField [] [[]] recs cs
      else csvParseAux .inField [c] [] recs cs
    | .startField =>
      if c = '\n' then csvParseAux .startRecord [] [] (recs ++ [fields ++ [[]]]) cs
      else if c = '\r' then csvParseAux .eatCrnl [] (fields ++ [[]]) recs cs
      else if c = '"' then csvParseAux .inQuotedField [] fields recs cs
      else if c = ',' then csvParseAux .startField [] (fields ++ [[]]) recs cs
      else csvParseAux .inField [c] fields recs cs
    | .inField =>
      if c = '\n' then csvParseAux .startRecord [] [] (recs ++ [fields ++ [field]]) cs
      else if c = '\r' then csvParseAux .eatCrnl [] (fields ++ [field]) recs cs
      else if c = ',' then csvParseAux .startField [] (fields ++ [field]) recs cs
      else csvParseAux .inField (field ++ [c]) fields recs cs
    | .inQuotedField =>
      if c = '"' then csvParseAux .quoteInQuotedField field fields recs cs
      else csvParseAux .inQuotedField (field ++ [c]) fields recs cs
    | .quoteInQuotedField =>
      if c = '"' then csvParseAux .inQuotedField (field ++ ['"']) fields recs cs
      else if c = ',' then csvParseAux .startField [] (fields ++ [field]) recs cs
      else if c = '\n' then
        csvParseAux .startRecord [] [] (recs ++ [fields ++ [field]]) cs
      else if c = '\r' then csvParseAux .eatCrnl [] (fields ++ [field]) recs cs
      else csvParseAux .inField (field ++ [c]) fields recs cs
    | .eatCrnl =>
      if c = '\r' then csvParseAux .eatCrnl [] fields recs cs
      else if c = '\n' then csvParseAux .startRecord [] [] (recs ++ [fields]) cs
      else (recs, true)

/-- The whole `csv.reader(StringIO(normalized))` iteration: the records it
yields before the end of input or a `csv.Error`, with the error flag. -/
def csvRecords (normalized : List Char) : List (List (List Char)) × Bool :=
  csvParseAux .startRecord [] [] [] normalized

/-- The records `csv.reader` yields successfully, in order. -/
def recordsOf (normalized : List Char) : List (List (List Char)) :=
  (csvRecords normalized).1

/-- Whether the `csv.reader` iteration ends by raising `csv.Error` after
the records of `recordsOf` (instead of ending with `StopIteration`). -/
def csvAbort (normalized : List Char) : Bool :=
  (csvRecords normalized).2

/-- The identifier column name required in the header. -/
def swId : List Char := "switch_id".toList

/-- One inner metric mapping of a snapshot: metric name to raw value. -/
abbrev Metrics := List (String × String)

/-- A parsed snapshot: entity identifier to its metric mapping.  Modelled as
an association list with unique keys maintained by `upsert` (Python dict
semantics: insertion order, in-place overwrite). -/
abbrev Snapshot := List (String × Metrics)

/-- Python dict assignment `d[k] = v`: overwrite in place if the key is
present, append otherwise. -/
def upsert {α β : Type} [DecidableEq α] (k : α) (v : β) :
    List (α × β) → List (α × β)
  | [] => [(k, v)]
  | (k₁, v₁) :: rest =>
    if k₁ = k then (k, v) :: rest else (k₁, v₁) :: upsert k v rest

/-- The metrics dict built for one data row: every header column except the
identifier column, mapped to the raw (unstripped) row field at that index. -/
def rowMetrics (header : List (List Char)) (idx : Nat)
    (row : List (List Char)) : Metrics :=
  (header.enum.filter (fun p => p.1 ≠ idx)).foldl
    (fun m p => upsert (String.mk p.2) (String.mk (row.getD p.1 [])) m) []

/-- The data-row loop of `parse_csv_data`: it pulls records from the
reader one at a time, so it sees the successfully tokenized records in
order; a row whose field count differs from the header raises
`rowShapeError` at once (masking any later tokenizer failure), and only
when the good records are exhausted does a pending `csv.Error` of the
iterator surface (`tailErr`).  Each good row stores its stripped
identifier with the row metrics (`result[switch_id] = metrics`). -/
def processRows (header : List (List Char)) (idx : Nat) :
    List (List (List Char)) → Bool → Snapshot → Except ParseError Snapshot
  | [], tailErr, acc => if tailErr then .error .csvError else .ok acc
  | r :: rs, tailErr, acc =>
    if r.length ≠ header.length then .error .rowShapeError
    else
      processRows header idx rs tailErr
        (upsert (String.mk (stripChars (r.getD idx []))) (rowMetrics header idx r) acc)

/-- The call `header.index` applied to the identifier name: index of the first occurrence. -/
def switchIdx (header : List (List Char)) : Nat :=
  header.findIdx (fun f => f = swId)

/-- `parse_csv_data` from `aggregator_utils.py`: early empty return on
whitespace-only input, escape-sequence normalization, header extraction
(`StopIteration` on an empty stream yields the empty dict; a `csv.Error`
while tokenizing the first record propagates), mandatory `switch_id`
column, first-occurrence index for the identifier, then the row loop. -/
def parse_csv_data (s : String) : Except ParseError Snapshot :=
  if stripChars s.toList = [] then .ok []
  else
    match recordsOf (normalizeChars s.toList), csvAbort (normalizeChars s.toList) with
    | [], true => .error .csvError
    | [], false => .ok []
    | header :: dataRows, tailErr =>
      if swId ∈ header then
        processRows header (switchIdx header) dataRows tailErr []
      else .error .schemaError

/-- The snapshot key built for a data row: the row field at the identifier
index, whitespace-stripped. -/
def keyOf (idx : Nat) (r : List (List Char)) : String :=
  String.mk (stripChars (r.getD idx []))

/-- The pure accumulation performed by the data-row loop once every row has
passed the field-count check. -/
def foldRows (header : List (List Char)) (idx : Nat)
    (rows : List (List (List Char))) (acc : Snapshot) : Snapshot :=
  rows.foldl (fun a r => upsert (keyOf idx r) (rowMetrics header idx r) a) acc

example : parse_csv_data "" = .ok [] := rfl
example : parse_csv_data "   \t\n" = .ok [] := rfl
example : parse_csv_data "switch_id,metric_1,metric_2" = .ok [] := rfl
example :
    parse_csv_data "switch_id,metric_1,metric_2\\nSW-01,10.5,UP\\nSW-02,99.9,DOWN" =
      .ok [("SW-01", [("metric_1", "10.5"), ("metric_2", "UP")]),
           ("SW-02", [("metric_1", "99.9"), ("metric_2", "DOWN")])] := rfl
example :
    parse_csv_data "switch_id,metric_1,metric_2\\nSW-01,10.5,UP\\nSW-02,99.9" =
      .error .rowShapeError := rfl
example : parse_csv_data "metric_1,metric_2" = .error .schemaError := rfl
example : parse_csv_data "\\n" = .error .schemaError := rfl
example : parse_csv_data "\n" = .ok [] := rfl
example :
    parse_csv_data "switch_id,m\n A ,1\nA,2" = .ok [("A", [("m", "2")])] := rfl
example :
    parse_csv_data "switch_id,m\nA,1\rB,2" = .error .csvError := rfl
example :
    parse_csv_data "switch_id,m\n\"A,B\",1" = .ok [("A,B", [("m", "1")])] := rfl
example : parse_csv_data "switch_id,m\r\nA,1" = .ok [("A", [("m", "1")])] := rfl
example : parse_csv_data "\u00a0" = .ok [] := rfl
example :
    parse_csv_data "switch_id\nA,9\nB\rC" = .error .rowShapeError := rfl

/-! ### Store and ingestion worker (`aggregator_server.py`) -/

/-- The `AggregatorStore` state relevant to the claims: the RCU snapshot
reference `current_data` and the metric fields `ingestion_success_total`,
`ingestion_failure_total` and `is_ready`.  The float latency gauges, the
timestamp and the API query counter are outside the modelled scope
(floating point / wall-clock time). -/
structure Store where
  current_data : Snapshot
  ingestion_success_total : Nat
  ingestion_failure_total : Nat
  is_ready : Bool
deriving DecidableEq, Repr

/-- `AggregatorStore.__init__`: empty snapshot, zero counters, not ready. -/
def Store.init : Store :=
  { current_data := []
    ingestion_success_total := 0
    ingestion_failure_total := 0
    is_ready := false }

/-- What one call of the undecorated `fetch_and_parse_telemetry` body meets
in the environment: either a NetworkError-class failure (connect failure,
timeout, or a non-2xx status turned into an exception by
`raise_for_status`), or a 2xx response with the given body text. -/
inductive FetchResult where
  | netErr
  | payload (body : String)
deriving DecidableEq, Repr

/-- One call of the undecorated `fetch_and_parse_telemetry` body.
`Except.error` means the call raised, propagating to the retry decorator:
a NetworkError-class exception, or a `csv.Error` from `parse_csv_data` —
`csv.Error` is not a `ValueError`, so the except-ValueError handler misses
it and the store is left untouched.  `Except.ok none` is the `return None`
taken when `parse_csv_data` raises a `ValueError` (schema or row-shape),
which also increments `ingestion_failure_total`; `Except.ok (some m)`
returns the parsed snapshot. -/
def attemptOnce (fr : FetchResult) (st : Store) :
    Except Unit (Option Snapshot) × Store :=
  match fr with
  | .netErr => (.error (), st)
  | .payload body =>
    match parse_csv_data body with
    | .ok m => (.ok (some m), st)
    | .error .csvError => (.error (), st)
    | .error .schemaError =>
      (.ok none,
       { st with ingestion_failure_total := st.ingestion_failure_total + 1 })
    | .error .rowShapeError =>
      (.ok none,
       { st with ingestion_failure_total := st.ingestion_failure_total + 1 })

/-- The observable outcome of one run of the `retry_with_backoff` wrapper:
the returned value or the re-raised exception, the store as updated by the
attempts, the number of attempts made, and the backoff delays slept (in
units of the base delay times a power of two). -/
structure RetryRun where
  result : Except Unit (Option Snapshot)
  store : Store
  attempts : Nat
  delays : List Nat
deriving Repr

/-- The `while True` loop of `retry_with_backoff`, specialised to the
`fetch_and_parse_telemetry` body.  `i` is the zero-based index of the next
attempt, `remaining` the number of retries still allowed (`retries` minus
the failures so far); on a failure with no retries remaining the exception
is re-raised, otherwise the loop sleeps `base * 2 ^ (attempt - 1)` —
`attempt` being the one-based count of failures, i.e. `i + 1` — and tries
again. -/
def retryLoop (base : Nat) (env : Nat → FetchResult) :
    Nat → Nat → Store → List Nat → RetryRun
  | i, 0, st, ds =>
    match attemptOnce (env i) st with
    | (.ok r, st') => ⟨.ok r, st', i + 1, ds⟩
    | (.error _, st') => ⟨.error (), st', i + 1, ds⟩
  | i, r + 1, st, ds =>
    match attemptOnce (env i) st with
    | (.ok rr, st') => ⟨.ok rr, st', i + 1, ds⟩
    | (.error _, st') => retryLoop base env (i + 1) r st' (ds ++ [base * 2 ^ i])

/-- The decorator defaults in `aggregator_utils.py`: `retries=3`. -/
def RETRIES : Nat := 3

/-- The decorator defaults: `backoff_in_seconds=1.0`, modelled as one unit. -/
def BACKOFF_BASE : Nat := 1

/-- The decorated `fetch_and_parse_telemetry`: the retry wrapper around the
fetch-and-parse body, starting at attempt 0 with the full retry budget. -/
def fetch_and_parse_telemetry (env : Nat → FetchResult) (st : Store) : RetryRun :=
  retryLoop BACKOFF_BASE env 0 RETRIES st []

/-- The initial-load step of `ingestion_task`.  The call is NOT wrapped in a
try/except: a re-raised NetworkError exception propagates and the task
crashes (`Except.error`).  A returned snapshot is published and marks the
server ready only when it is truthy (`if initial_snapshot:` — `None` and
the empty dict are falsy). -/
def runCycleInitial (env : Nat → FetchResult) (st : Store) : Except Unit Store :=
  let r := fetch_and_parse_telemetry env st
  match r.result with
  | .error _ => .error ()
  | .ok none => .ok r.store
  | .ok (some m) =>
    if m ≠ [] then
      .ok { r.store with current_data := m, is_ready := true }
    else .ok r.store

/-- One iteration of the `while True` loop of `ingestion_task`: exceptions
are swallowed by `except Exception: pass`; a non-`None` snapshot (the empty
dict included — the loop tests `is not None`) is swapped in and counted as
a success.  `is_ready` is never touched here. -/
def runCycleLoop (env : Nat → FetchResult) (st : Store) : Store :=
  let r := fetch_and_parse_telemetry env st
  match r.result with
  | .error _ => r.store
  | .ok none => r.store
  | .ok (some m) =>
    { r.store with
      current_data := m
      ingestion_success_total := r.store.ingestion_success_total + 1 }

/-- `n` iterations of the periodic loop; `envs k` is the environment of the
`k`-th iteration. -/
def runLoop (envs : Nat → Nat → FetchResult) : Nat → Store → Store
  | 0, st => st
  | n + 1, st => runLoop (fun k => envs (k + 1)) n (runCycleLoop (envs 0) st)

/-- The whole `ingestion_task` observed after the initial load and `n`
periodic iterations: `Except.error` if the task crashed during the initial
load, otherwise the store state. -/
def runTask (envInit : Nat → FetchResult) (envs : Nat → Nat → FetchResult)
    (n : Nat) : Except Unit Store :=
  match runCycleInitial envInit Store.init with
  | .error e => .error e
  | .ok st => .ok (runLoop envs n st)

/-! ### Read API (`aggregator_server.py` endpoints) -/

/-- An endpoint response: a 200 payload or an error response with a status
code and a plain-text body. -/
inductive ApiResult (α : Type) where
  | ok (x : α)
  | errResp (code : Nat) (msg : String)
deriving DecidableEq, Repr

/-- `GET /health`: 503 with the loading message until `is_ready`, then 200. -/
def health_check (st : Store) : ApiResult String :=
  if st.is_ready then .ok "OK"
  else .errResp 503 "Service Unavailable: Initial data loading."

/-- `GET /telemetry/ListMetrics`: returns the current snapshot
unconditionally — there is no readiness or emptiness check. -/
def list_metrics (st : Store) : ApiResult Snapshot :=
  .ok st.current_data

/-- The 200 payload of `GET /telemetry/GetMetric/...`. -/
structure MetricResponse where
  switch_id : String
  metric_id : String
  value : String
deriving DecidableEq, Repr

/-- `GET /telemetry/GetMetric/{switch_id}/{metric_id}`:
`data.get(switch_id, \x7b\x7d).get(metric_id)`; `None` yields the single
generic 404 plain-text response. -/
def get_metric (st : Store) (sid mid : String) : ApiResult MetricResponse :=
  match (((st.current_data.lookup sid).getD []).lookup mid) with
  | none => .errResp 404 "Metric not found"
  | some v => .ok ⟨sid, mid, v⟩

/-- The outcome of a single attempt of the fetch-and-parse body, as seen by
the caller of the decorated function: a NetworkError-class attempt raises,
a payload attempt returns the parsed snapshot, returns `None` on a
`ValueError` (schema or row-shape), or raises the uncaught `csv.Error`. -/
def attemptResultOf : FetchResult → Except Unit (Option Snapshot)
  | .netErr => .error ()
  | .payload body =>
    match parse_csv_data body with
    | .ok m => .ok (some m)
    | .error .csvError => .error ()
    | .error .schemaError => .ok none
    | .error .rowShapeError => .ok none

/-- Whether one attempt of the body raises an exception that reaches the
retry decorator — a NetworkError-class failure or an uncaught
`csv.Error`. -/
def attemptRaises (fr : FetchResult) : Bool :=
  match attemptResultOf fr with
  | .error _ => true
  | .ok _ => false

/-- How much one run of the decorated fetch adds to
`ingestion_failure_total`: one when the body returned `None` after a
`ValueError`, zero otherwise. -/
def failBump : Except Unit (Option Snapshot) → Nat
  | .ok none => 1
  | _ => 0

/-- Whether the startup cycle publishes and marks the server ready: the
decorated fetch returns a snapshot and that snapshot is truthy
(non-empty). -/
def initialPublishes (env : Nat → FetchResult) : Bool :=
  match (fetch_and_parse_telemetry env Store.init).result with
  | .ok (some m) => decide (m ≠ [])
  | _ => false

/-- Whether a steady-state cycle publishes: the decorated fetch returns a
snapshot (the loop tests `is not None`, so the empty snapshot also
publishes). -/
def cyclePublishes (env : Nat → FetchResult) : Bool :=
  match (fetch_and_parse_telemetry env Store.init).result with
  | .ok (some _) => true
  | _ => false

example :
    runTask (fun _ => .payload "switch_id,m\nA,1") (fun _ _ => .netErr) 0 =
      .ok { current_data := [("A", [("m", "1")])]
            ingestion_success_total := 0
            ingestion_failure_total := 0
            is_ready := true } := rfl

example : runTask (fun _ => .netErr) (fun _ _ => .netErr) 2 = .error () := rfl

example :
    runTask (fun _ => .payload "bad_header\nx")
      (fun _ _ => .payload "switch_id,m\nA,1") 1 =
      .ok { current_data := [("A", [("m", "1")])]
            ingestion_success_total := 1
            ingestion_failure_total := 1
            is_ready := false } := rfl

/-! ### Lemmas about the parser -/

theorem mk_toList (s : String) : String.mk s.toList = s := by
  cases s
  rfl

theorem lookup_upsert {β : Type} (k k' : String) (v : β)
    (l : List (String × β)) :
    (upsert k' v l).lookup k = if k' = k then some v else l.lookup k := by
  induction l with
  | nil =>
    simp only [upsert, List.lookup]
    by_cases h : k' = k
    · subst h; simp
    · have hb : (k == k') = false := by
        simp only [beq_eq_false_iff_ne, ne_eq]
        exact fun h' => h h'.symm
      simp [hb, h]
  | cons p rest ih =>
    obtain ⟨k₁, v₁⟩ := p
    simp only [upsert]
    by_cases h1 : k₁ = k'
    · subst h1
      simp only [if_pos rfl, List.lookup]
      by_cases h : k₁ = k
      · subst h; simp
      · have hb : (k == k₁) = false := by
          simp only [beq_eq_false_iff_ne, ne_eq]
          exact fun h' => h h'.symm
        simp [hb, h]
    · simp only [if_neg h1, List.lookup]
      by_cases h : k₁ = k
      · subst h
        have h2 : ¬ k' = k₁ := fun h' => h1 h'.symm
        simp [h2]
      · have hb : (k == k₁) = false := by
          simp only [beq_eq_false_iff_ne, ne_eq]
          exact fun h' => h h'.symm
        simp [hb, ih]

theorem mem_upsert {β : Type} (k k' : String) (v v' : β)
    (l : List (String × β)) :
    (k, v) ∈ upsert k' v' l → (k = k' ∧ v = v') ∨ (k, v) ∈ l := by
  induction l with
  | nil =>
    intro h
    simp only [upsert] at h
    rcases List.mem_cons.mp h with h | h
    · exact Or.inl ⟨congrArg Prod.fst h, congrArg Prod.snd h⟩
    · exact absurd h (List.not_mem_nil _)
  | cons p rest ih =>
    intro h
    obtain ⟨k₁, v₁⟩ := p
    by_cases h1 : k₁ = k'
    · subst h1
      simp only [upsert] at h
      rw [if_pos trivial] at h
      rcases List.mem_cons.mp h with h | h
      · exact Or.inl ⟨congrArg Prod.fst h, congrArg Prod.snd h⟩
      · exact Or.inr (List.mem_cons_of_mem _ h)
    · simp only [upsert] at h
      rw [if_neg h1] at h
      rcases List.mem_cons.mp h with h | h
      · exact Or.inr (List.mem_cons.mpr (Or.inl h))
      · rcases ih h with h2 | h2
        · exact Or.inl h2
        · exact Or.inr (List.mem_cons_of_mem _ h2)

theorem foldRows_cons (header : List (List Char)) (idx : Nat)
    (r : List (List Char)) (rs : List (List (List Char))) (acc : Snapshot) :
    foldRows header idx (r :: rs) acc =
      foldRows header idx rs (upsert (keyOf idx r) (rowMetrics header idx r) acc) := rfl

theorem processRows_cons_ok (header : List (List Char)) (idx : Nat)
    (r : List (List Char)) (rs : List (List (List Char))) (tailErr : Bool)
    (acc : Snapshot) (hr : r.length = header.length) :
    processRows header idx (r :: rs) tailErr acc =
      processRows header idx rs tailErr
        (upsert (keyOf idx r) (rowMetrics header idx r) acc) := by
  simp only [processRows, keyOf]
  rw [if_neg (by simp [hr])]

theorem processRows_ok (header : List (List Char)) (idx : Nat)
    (rows : List (List (List Char))) (acc : Snapshot)
    (h : ∀ r ∈ rows, r.length = header.length) :
    processRows header idx rows false acc = .ok (foldRows header idx rows acc) := by
  induction rows generalizing acc with
  | nil => rfl
  | cons r rs ih =>
    have hr : r.length = header.length := h r (List.mem_cons_self r rs)
    rw [processRows_cons_ok header idx r rs false acc hr, foldRows_cons]
    exact ih _ (fun r' hr' => h r' (List.mem_cons_of_mem _ hr'))

theorem processRows_tail_csvError (header : List (List Char)) (idx : Nat)
    (rows : List (List (List Char))) (acc : Snapshot)
    (h : ∀ r ∈ rows, r.length = header.length) :
    processRows header idx rows true acc = .error .csvError := by
  induction rows generalizing acc with
  | nil => rfl
  | cons r rs ih =>
    have hr : r.length = header.length := h r (List.mem_cons_self r rs)
    rw [processRows_cons_ok header idx r rs true acc hr]
    exact ih _ (fun r' hr' => h r' (List.mem_cons_of_mem _ hr'))

theorem processRows_mismatch (header : List (List Char)) (idx : Nat)
    (rows : List (List (List Char))) (tailErr : Bool) (acc : Snapshot)
    (h : ∃ r ∈ rows, r.length ≠ header.length) :
    processRows header idx rows tailErr acc = .error .rowShapeError := by
  induction rows generalizing acc with
  | nil => simp at h
  | cons r rs ih =>
    by_cases hr : r.length = header.length
    · obtain ⟨r', hr', hne⟩ := h
      rcases List.mem_cons.mp hr' with h' | h'
      · subst h'; exact (hne hr).elim
      · rw [processRows_cons_ok header idx r rs tailErr acc hr]
        exact ih _ ⟨r', h', hne⟩
    · simp only [processRows]
      rw [if_pos hr]

theorem processRows_ok_inv (header : List (List Char)) (idx : Nat)
    (rows : List (List (List Char))) (tailErr : Bool) (acc : Snapshot)
    (m : Snapshot)
    (h : processRows header idx rows tailErr acc = .ok m) :
    (∀ r ∈ rows, r.length = header.length) ∧ tailErr = false ∧
      m = foldRows header idx rows acc := by
  by_cases hall : ∀ r ∈ rows, r.length = header.length
  · cases tailErr with
    | true =>
      rw [processRows_tail_csvError header idx rows acc hall] at h
      cases h
    | false =>
      refine ⟨hall, rfl, ?_⟩
      rw [processRows_ok header idx rows acc hall] at h
      exact (Except.ok.inj h).symm
  · push_neg at hall
    obtain ⟨r, hr, hne⟩ := hall
    rw [processRows_mismatch header idx rows tailErr acc ⟨r, hr, hne⟩] at h
    cases h

theorem lookup_foldRows (header : List (List Char)) (idx : Nat)
    (rows : List (List (List Char))) (acc : Snapshot) (k : String) :
    (foldRows header idx rows acc).lookup k =
      match (rows.filter (fun r => keyOf idx r = k)).getLast? with
      | some r => some (rowMetrics header idx r)
      | none => acc.lookup k := by
  induction rows generalizing acc with
  | nil => rfl
  | cons r rs ih =>
    rw [foldRows_cons, ih]
    by_cases hk : keyOf idx r = k
    · have hf : (r :: rs).filter (fun r => keyOf idx r = k) =
          r :: rs.filter (fun r => keyOf idx r = k) := by
        simp [List.filter_cons, hk]
      rw [hf]
      cases hrest : rs.filter (fun r => keyOf idx r = k) with
      | nil =>
        simp only [List.getLast?_singleton]
        rw [lookup_upsert, if_pos hk]
        rfl
      | cons a l =>
        rw [List.getLast?_cons_cons]
        rw [List.getLast?_eq_getLast (a :: l) (by simp)]
    · have hf : (r :: rs).filter (fun r => keyOf idx r = k) =
          rs.filter (fun r => keyOf idx r = k) := by
        simp [List.filter_cons, hk]
      rw [hf]
      cases hrest : rs.filter (fun r => keyOf idx r = k) with
      | nil =>
        rw [lookup_upsert, if_neg hk]
      | cons a l => rfl

theorem mem_foldRows (header : List (List Char)) (idx : Nat)
    (rows : List (List (List Char))) (acc : Snapshot) (k : String) (ms : Metrics) :
    (k, ms) ∈ foldRows header idx rows acc →
      (k, ms) ∈ acc ∨ ∃ r ∈ rows, k = keyOf idx r ∧ ms = rowMetrics header idx r := by
  induction rows generalizing acc with
  | nil => exact fun h => Or.inl h
  | cons r rs ih =>
    intro h
    rw [foldRows_cons] at h
    rcases ih _ h with h2 | h2
    · rcases mem_upsert k (keyOf idx r) ms (rowMetrics header idx r) acc h2 with h3 | h3
      · exact Or.inr ⟨r, List.mem_cons_self r rs, h3⟩
      · exact Or.inl h3
    · obtain ⟨r', hr', hk, hm⟩ := h2
      exact Or.inr ⟨r', List.mem_cons_of_mem _ hr', hk, hm⟩

theorem mem_fold_upsert_pairs (row : List (List Char))
    (ps : List (Nat × List Char)) (acc : Metrics) (c v : String) :
    (c, v) ∈ ps.foldl
        (fun m p => upsert (String.mk p.2) (String.mk (row.getD p.1 [])) m) acc →
      (c, v) ∈ acc ∨
        ∃ p ∈ ps, c = String.mk p.2 ∧ v = String.mk (row.getD p.1 []) := by
  induction ps generalizing acc with
  | nil => exact fun h => Or.inl h
  | cons p ps ih =>
    intro h
    rcases ih _ h with h2 | h2
    · rcases mem_upsert c (String.mk p.2) v (String.mk (row.getD p.1 [])) acc h2 with h3 | h3
      · exact Or.inr ⟨p, List.mem_cons_self p ps, h3⟩
      · exact Or.inl h3
    · obtain ⟨p', hp', hc, hv⟩ := h2
      exact Or.inr ⟨p', List.mem_cons_of_mem _ hp', hc, hv⟩

theorem mem_rowMetrics (header : List (List Char)) (idx : Nat)
    (row : List (List Char)) (c v : String) :
    (c, v) ∈ rowMetrics header idx row →
      ∃ i, i < header.length ∧ i ≠ idx ∧
        c = String.mk (header.getD i []) ∧ v = String.mk (row.getD i []) := by
  intro h
  rcases mem_fold_upsert_pairs row _ [] c v h with h2 | h2
  · exact absurd h2 (List.not_mem_nil _)
  · obtain ⟨p, hp, hc, hv⟩ := h2
    have hmem := List.mem_filter.mp hp
    have henum := hmem.1
    have hne : p.1 ≠ idx := by
      have := hmem.2
      simpa using this
    obtain ⟨i, col⟩ := p
    have hget : header[i]? = some col := List.mem_enum_iff_getElem?.mp henum
    have hlt : i < header.length := (List.getElem?_eq_some.mp hget).1
    refine ⟨i, hlt, hne, ?_, hv⟩
    have hd : header.getD i [] = col := by
      simp [List.getD, hget]
    rw [hd]
    exact hc

theorem head_dropWhile_false (p : Char → Bool) :
    ∀ (l : List Char) (c : Char), (l.dropWhile p).head? = some c → p c = false := by
  intro l
  induction l with
  | nil => intro c h; cases h
  | cons c' cs ih =>
    intro c h
    by_cases hp : p c' = true
    · rw [List.dropWhile_cons_of_pos hp] at h
      exact ih c h
    · rw [List.dropWhile_cons_of_neg hp] at h
      cases h
      simpa using hp

theorem dropWhile_of_head_false (p : Char → Bool) (l : List Char)
    (h : ∀ c, l.head? = some c → p c = false) : l.dropWhile p = l := by
  cases l with
  | nil => rfl
  | cons c cs =>
    have : p c = false := h c rfl
    rw [List.dropWhile_cons_of_neg (by simp [this])]

theorem getLast_dropWhile_of_ne_nil (p : Char → Bool) :
    ∀ (l : List Char), l.dropWhile p ≠ [] → (l.dropWhile p).getLast? = l.getLast? := by
  intro l
  induction l with
  | nil => intro h; exact absurd rfl h
  | cons c cs ih =>
    intro h
    by_cases hp : p c = true
    · rw [List.dropWhile_cons_of_pos hp] at h ⊢
      rw [ih h]
      cases cs with
      | nil => simp at h
      | cons a l' => rw [List.getLast?_cons_cons]
    · rw [List.dropWhile_cons_of_neg hp]

theorem strip_one (p : Char → Bool) (x : List Char)
    (hhead : ∀ c, x.head? = some c → p c = false)
    (hlast : ∀ c, x.getLast? = some c → p c = false) :
    ((x.dropWhile p).reverse.dropWhile p).reverse = x := by
  rw [dropWhile_of_head_false p x hhead]
  have hrev : ∀ c, x.reverse.head? = some c → p c = false := by
    intro c hc
    rw [List.head?_reverse] at hc
    exact hlast c hc
  rw [dropWhile_of_head_false p x.reverse hrev, List.reverse_reverse]

theorem stripChars_head_false (l : List Char) (c : Char)
    (hc : (stripChars l).head? = some c) : pythonIsSpace c = false := by
  unfold stripChars at hc
  rw [List.head?_reverse] at hc
  by_cases hB :
      (List.dropWhile pythonIsSpace l).reverse.dropWhile pythonIsSpace = []
  · rw [hB] at hc; cases hc
  · rw [getLast_dropWhile_of_ne_nil _ _ hB, List.getLast?_reverse] at hc
    exact head_dropWhile_false _ _ _ hc

theorem stripChars_last_false (l : List Char) (c : Char)
    (hc : (stripChars l).getLast? = some c) : pythonIsSpace c = false := by
  unfold stripChars at hc
  rw [List.getLast?_reverse] at hc
  exact head_dropWhile_false _ _ _ hc

theorem stripChars_idem (l : List Char) :
    stripChars (stripChars l) = stripChars l :=
  strip_one pythonIsSpace (stripChars l)
    (stripChars_head_false l) (stripChars_last_false l)

theorem toList_mk (l : List Char) : (String.mk l).toList = l := rfl

theorem parse_ok_of_strip_empty (s : String)
    (hs : stripChars s.toList = []) : parse_csv_data s = .ok [] := by
  unfold parse_csv_data
  rw [if_pos hs]

theorem parse_ok_of_records_nil (s : String)
    (hs : stripChars s.toList ≠ [])
    (hrec : recordsOf (normalizeChars s.toList) = [])
    (habort : csvAbort (normalizeChars s.toList) = false) :
    parse_csv_data s = .ok [] := by
  unfold parse_csv_data
  rw [if_neg hs, hrec, habort]

theorem parse_csvError_of_records_nil (s : String)
    (hs : stripChars s.toList ≠ [])
    (hrec : recordsOf (normalizeChars s.toList) = [])
    (habort : csvAbort (normalizeChars s.toList) = true) :
    parse_csv_data s = .error .csvError := by
  unfold parse_csv_data
  rw [if_neg hs, hrec, habort]

theorem parse_eq_processRows (s : String) (header : List (List Char))
    (rows : List (List (List Char)))
    (hs : stripChars s.toList ≠ [])
    (hrec : recordsOf (normalizeChars s.toList) = header :: rows)
    (hsw : swId ∈ header) :
    parse_csv_data s =
      processRows header (switchIdx header) rows
        (csvAbort (normalizeChars s.toList)) [] := by
  unfold parse_csv_data
  rw [if_neg hs, hrec]
  show (if swId ∈ header then
          processRows header (switchIdx header) rows
            (csvAbort (normalizeChars s.toList)) []
        else Except.error ParseError.schemaError) = _
  rw [if_pos hsw]

theorem parse_schemaError (s : String) (header : List (List Char))
    (rows : List (List (List Char)))
    (hs : stripChars s.toList ≠ [])
    (hrec : recordsOf (normalizeChars s.toList) = header :: rows)
    (hsw : swId ∉ header) :
    parse_csv_data s = .error .schemaError := by
  unfold parse_csv_data
  rw [if_neg hs, hrec]
  show (if swId ∈ header then
          processRows header (switchIdx header) rows
            (csvAbort (normalizeChars s.toList)) []
        else Except.error ParseError.schemaError) = _
  rw [if_neg hsw]

/-! ### Claims C7 to C10 — the parser -/

/-- Claim C7, counterexample: the input `metric_1,metric_2` is header-only
(its record stream is a single record, the header, with no data rows), yet
parsing raises the missing-identifier `ValueError` instead of yielding an
empty mapping — the claim says every header-only input yields an empty
mapping rather than an error. -/
theorem c7_counterexample :
    recordsOf (normalizeChars "metric_1,metric_2".toList) =
      [["metric_1".toList, "metric_2".toList]] ∧
    parse_csv_data "metric_1,metric_2" = .error .schemaError := ⟨rfl, rfl⟩

/-- Claim C7 (amended): empty or whitespace-only input parses to the empty
mapping; header-only input (the record stream is exactly a header, ending
without a `csv.Error`) parses to the empty mapping provided the header
contains the identifier column; and on any successful parse, each key maps
to the metrics of the last data row whose stripped identifier equals the
key (each non-identifier column name mapped to the raw field of that row) —
later duplicate identifiers overwrite earlier ones. -/
theorem c7_amended (s : String) :
    (stripChars s.toList = [] → parse_csv_data s = .ok []) ∧
    (∀ header, stripChars s.toList ≠ [] →
      recordsOf (normalizeChars s.toList) = [header] →
      csvAbort (normalizeChars s.toList) = false → swId ∈ header →
      parse_csv_data s = .ok []) ∧
    (∀ m header rows, parse_csv_data s = .ok m →
      stripChars s.toList ≠ [] →
      recordsOf (normalizeChars s.toList) = header :: rows → swId ∈ header →
      ∀ k : String, m.lookup k =
        ((rows.filter (fun r => keyOf (switchIdx header) r = k)).getLast?).map
          (rowMetrics header (switchIdx header))) := by
  refine ⟨parse_ok_of_strip_empty s, ?_, ?_⟩
  · intro header hs hrec habort hsw
    rw [parse_eq_processRows s header [] hs hrec hsw, habort]
    rfl
  · intro m header rows hok hs hrec hsw k
    rw [parse_eq_processRows s header rows hs hrec hsw] at hok
    obtain ⟨hall, _, hm⟩ := processRows_ok_inv header (switchIdx header) rows
      (csvAbort (normalizeChars s.toList)) [] m hok
    subst hm
    rw [lookup_foldRows]
    cases (rows.filter fun r => keyOf (switchIdx header) r = k).getLast? <;> rfl

/-- Claim C7, witness: on `switch_id,m` with rows `A,1` and `A,2`, the parse
succeeds and the amended characterization yields the value of the last row for
key `A`. -/
theorem c7_witness :
    List.lookup ("A" : String) [(("A" : String), ([("m", "2")] : Metrics))] =
      some [("m", "2")] := by
  have h := (c7_amended "switch_id,m\nA,1\nA,2").2.2
    [("A", [("m", "2")])]
    ["switch_id".toList, "m".toList]
    [["A".toList, "1".toList], ["A".toList, "2".toList]]
    rfl (by decide) rfl (by decide) "A"
  exact h.trans rfl

/-- Claim C8, counterexample: the body `switch_id,m` with rows `A,1` and
`B,2` separated by a bare carriage return fails with `csv.Error` — a third
failure kind that is neither the missing-identifier `SchemaError` nor the
field-count `RowShapeError`, refuting the claim that parsing fails exactly
with those two errors on exactly those two ill-formed shapes. -/
theorem c8_counterexample :
    parse_csv_data "switch_id,m\nA,1\rB,2" = .error .csvError ∧
    ParseError.csvError ≠ .schemaError ∧
    ParseError.csvError ≠ .rowShapeError := ⟨rfl, by decide, by decide⟩

/-- Claim C8 (amended): an exact characterization of every failure.  For
input that is not whitespace-only: if the reader raises `csv.Error` while
tokenizing the first record, that error propagates; once a header record
parses, the result is the missing-identifier `SchemaError` precisely when
`switch_id` is absent from the header; with the identifier present, the
row loop reports `RowShapeError` precisely when the field count of some
successfully tokenized data row differs from that of the header (rows are
pulled in order, so such a mismatch masks a later tokenizer failure), and
a trailing `csv.Error` of the iterator surfaces only when every tokenized
data row is well-shaped.  The `Except` result carries no snapshot at all
in any failure case. -/
theorem c8_amended (s : String) (e : ParseError) :
    parse_csv_data s = .error e ↔
      (stripChars s.toList ≠ [] ∧
       ((recordsOf (normalizeChars s.toList) = [] ∧
          csvAbort (normalizeChars s.toList) = true ∧ e = .csvError) ∨
        ∃ header rows, recordsOf (normalizeChars s.toList) = header :: rows ∧
          ((swId ∉ header ∧ e = .schemaError) ∨
           (swId ∈ header ∧ (∃ r ∈ rows, r.length ≠ header.length) ∧
             e = .rowShapeError) ∨
           (swId ∈ header ∧ (∀ r ∈ rows, r.length = header.length) ∧
             csvAbort (normalizeChars s.toList) = true ∧ e = .csvError)))) := by
  constructor
  · intro h
    by_cases hs : stripChars s.toList = []
    · rw [parse_ok_of_strip_empty s hs] at h; cases h
    · refine ⟨hs, ?_⟩
      cases hrec : recordsOf (normalizeChars s.toList) with
      | nil =>
        cases habort : csvAbort (normalizeChars s.toList) with
        | false => rw [parse_ok_of_records_nil s hs hrec habort] at h; cases h
        | true =>
          rw [parse_csvError_of_records_nil s hs hrec habort] at h
          exact Or.inl ⟨rfl, rfl, (Except.error.inj h).symm⟩
      | cons header rows =>
        refine Or.inr ⟨header, rows, rfl, ?_⟩
        by_cases hsw : swId ∈ header
        · rw [parse_eq_processRows s header rows hs hrec hsw] at h
          by_cases hall : ∀ r ∈ rows, r.length = header.length
          · cases habort : csvAbort (normalizeChars s.toList) with
            | false =>
              rw [habort, processRows_ok _ _ _ _ hall] at h
              cases h
            | true =>
              rw [habort, processRows_tail_csvError _ _ _ _ hall] at h
              exact Or.inr (Or.inr ⟨hsw, hall, rfl, (Except.error.inj h).symm⟩)
          · push_neg at hall
            obtain ⟨r, hr, hne⟩ := hall
            rw [processRows_mismatch header (switchIdx header) rows
              (csvAbort (normalizeChars s.toList)) [] ⟨r, hr, hne⟩] at h
            exact Or.inr (Or.inl ⟨hsw, ⟨r, hr, hne⟩, (Except.error.inj h).symm⟩)
        · rw [parse_schemaError s header rows hs hrec hsw] at h
          exact Or.inl ⟨hsw, (Except.error.inj h).symm⟩
  · rintro ⟨hs, ⟨hrec, habort, he⟩ | ⟨header, rows, hrec, hcase⟩⟩
    · subst he
      exact parse_csvError_of_records_nil s hs hrec habort
    · rcases hcase with ⟨hsw, he⟩ | ⟨hsw, hmis, he⟩ | ⟨hsw, hall, habort, he⟩
      · subst he
        exact parse_schemaError s header rows hs hrec hsw
      · subst he
        rw [parse_eq_processRows s header rows hs hrec hsw]
        exact processRows_mismatch _ _ _ _ _ hmis
      · subst he
        rw [parse_eq_processRows s header rows hs hrec hsw, habort]
        exact processRows_tail_csvError _ _ _ _ hall

/-- Claim C8, witness: the characterization applied to the input
`switch_id,b` with a one-field data row `c` gives the row-shape error. -/
theorem c8_witness :
    parse_csv_data "switch_id,b\nc" = .error .rowShapeError := by
  exact (c8_amended "switch_id,b\nc" .rowShapeError).mpr
    ⟨by decide,
     Or.inr ⟨["switch_id".toList, "b".toList], [["c".toList]], rfl,
       Or.inr (Or.inl ⟨by decide, ⟨["c".toList], by decide, by decide⟩, rfl⟩)⟩⟩

/-- Claim C9, counterexample: the inputs `\n` (a real newline) and `\\n`
(the literal escape sequence) normalize to the same character list, yet do
not parse to the same result: the real newline is whitespace-only and
yields the empty mapping, while the literal escape survives the emptiness
check, normalizes to a lone newline, and fails with the missing-identifier
error — refuting the claim that inputs differing only in those literal
escape sequences parse to the same snapshot. -/
theorem c9_counterexample :
    normalizeChars "\\n".toList = normalizeChars "\n".toList ∧
    parse_csv_data "\n" = .ok [] ∧
    parse_csv_data "\\n" = .error .schemaError := ⟨rfl, rfl, rfl⟩

/-- Claim C9 (amended): the rewriting of literal escape sequences happens
after the emptiness check on the raw input; two inputs that both pass that
check (neither is whitespace-only) and normalize to the same character
list parse identically — in particular occurrences inside field values are
rewritten, silently altering such values. -/
theorem c9_amended (s t : String)
    (hs : stripChars s.toList ≠ []) (ht : stripChars t.toList ≠ [])
    (hnorm : normalizeChars s.toList = normalizeChars t.toList) :
    parse_csv_data s = parse_csv_data t := by
  unfold parse_csv_data
  rw [if_neg hs, if_neg ht, hnorm]

/-- Claim C9, witness: a literal `\n` escape in place of a real newline
parses identically when neither input is whitespace-only. -/
theorem c9_witness :
    parse_csv_data "switch_id,m\\nA,1" = parse_csv_data "switch_id,m\nA,1" :=
  c9_amended _ _ (by decide) (by decide) rfl

/-- Claim C10: on any successful parse, every entity key is
whitespace-trimmed (stripping it again is the identity); every key-metrics
entry comes from a data row whose stripped identifier field is the key;
metric names and values are taken verbatim (unstripped) from header and
row fields at non-identifier indices; and when an earlier and a later row
have identifiers equal after stripping, the published entry for that key
is the metrics mapping of the later row. -/
theorem c10_thm (s : String) (m : Snapshot) (header : List (List Char))
    (rows : List (List (List Char)))
    (hok : parse_csv_data s = .ok m)
    (hs : stripChars s.toList ≠ [])
    (hrec : recordsOf (normalizeChars s.toList) = header :: rows)
    (hsw : swId ∈ header) :
    (∀ k ms, (k, ms) ∈ m → String.mk (stripChars k.toList) = k ∧
       ∃ r ∈ rows, k = keyOf (switchIdx header) r ∧
         ms = rowMetrics header (switchIdx header) r) ∧
    (∀ r c v, (c, v) ∈ rowMetrics header (switchIdx header) r →
       ∃ i, i < header.length ∧ i ≠ switchIdx header ∧
         c = String.mk (header.getD i []) ∧ v = String.mk (r.getD i [])) ∧
    (∀ pre mid post r₁ r₂, rows = pre ++ r₁ :: mid ++ r₂ :: post →
       keyOf (switchIdx header) r₁ = keyOf (switchIdx header) r₂ →
       (∀ r ∈ post, keyOf (switchIdx header) r ≠ keyOf (switchIdx header) r₂) →
       m.lookup (keyOf (switchIdx header) r₂) =
         some (rowMetrics header (switchIdx header) r₂)) := by
  rw [parse_eq_processRows s header rows hs hrec hsw] at hok
  obtain ⟨hall, _, hm⟩ := processRows_ok_inv header (switchIdx header) rows
    (csvAbort (normalizeChars s.toList)) [] m hok
  subst hm
  refine ⟨?_, ?_, ?_⟩
  · intro k ms hmem
    rcases mem_foldRows header (switchIdx header) rows [] k ms hmem with h | h
    · exact absurd h (List.not_mem_nil _)
    · obtain ⟨r, hr, hk, hms⟩ := h
      refine ⟨?_, r, hr, hk, hms⟩
      rw [hk]
      show String.mk (stripChars (String.mk _).toList) = _
      rw [toList_mk, stripChars_idem]
      rfl
  · intro r c v hmem
    exact mem_rowMetrics header (switchIdx header) r c v hmem
  · intro pre mid post r₁ r₂ hsplit hkey hpost
    have hfpost : post.filter
        (fun r => keyOf (switchIdx header) r = keyOf (switchIdx header) r₂) = [] := by
      rw [List.filter_eq_nil_iff]
      intro r hr
      simpa using hpost r hr
    have hassoc : rows = (pre ++ r₁ :: mid) ++ (r₂ :: post) := by
      rw [hsplit]
    have hfilter : rows.filter
        (fun r => keyOf (switchIdx header) r = keyOf (switchIdx header) r₂) =
        (pre ++ r₁ :: mid).filter
          (fun r => keyOf (switchIdx header) r = keyOf (switchIdx header) r₂) ++ [r₂] := by
      rw [hassoc, List.filter_append, List.filter_cons_of_pos (by simp), hfpost]
    rw [lookup_foldRows, hfilter, List.getLast?_concat]

/-- Claim C10, witness: the rows ` A ,1` and `A,2` have identifiers equal
after stripping; the published entry for key `A` is the metrics of the later row, and the key is stored trimmed. -/
theorem c10_witness :
    List.lookup ("A" : String) [(("A" : String), ([("m", "2")] : Metrics))] =
      some [("m", "2")] ∧
    String.mk (stripChars ("A" : String).toList) = ("A" : String) := by
  have h := c10_thm "switch_id,m\n A ,1\nA,2"
    [("A", [("m", "2")])]
    ["switch_id".toList, "m".toList]
    [[" A ".toList, "1".toList], ["A".toList, "2".toList]]
    rfl (by decide) rfl (by decide)
  refine ⟨?_, ?_⟩
  · have h3 := h.2.2 [] [] [] [" A ".toList, "1".toList] ["A".toList, "2".toList]
      rfl (by decide) (by simp)
    exact h3.trans rfl
  · have h1 := (h.1 "A" [("m", "2")] (by simp)).1
    exact h1

/-! ### Lemmas about the retry wrapper and the worker -/

theorem attemptOnce_eta (fr : FetchResult) (st : Store) :
    attemptOnce fr st = (attemptResultOf fr, (attemptOnce fr st).2) := by
  cases fr with
  | netErr => rfl
  | payload body =>
    cases hp : parse_csv_data body with
    | ok m => simp [attemptOnce, attemptResultOf, hp]
    | error e => cases e <;> simp [attemptOnce, attemptResultOf, hp]

theorem attemptOnce_raise (fr : FetchResult) (st : Store)
    (h : attemptRaises fr = true) :
    attemptOnce fr st = (.error (), st) := by
  cases fr with
  | netErr => rfl
  | payload body =>
    cases hp : parse_csv_data body with
    | ok m => simp [attemptRaises, attemptResultOf, hp] at h
    | error e =>
      cases e with
      | schemaError => simp [attemptRaises, attemptResultOf, hp] at h
      | rowShapeError => simp [attemptRaises, attemptResultOf, hp] at h
      | csvError => simp [attemptOnce, hp]

theorem attemptRaises_iff (fr : FetchResult) :
    attemptRaises fr = true ↔
      fr = .netErr ∨ ∃ body, fr = .payload body ∧
        parse_csv_data body = .error .csvError := by
  cases fr with
  | netErr => simp [attemptRaises, attemptResultOf]
  | payload body =>
    cases hp : parse_csv_data body with
    | ok m => simp [attemptRaises, attemptResultOf, hp]
    | error e => cases e <;> simp [attemptRaises, attemptResultOf, hp]

theorem retryLoop_step_ok (base : Nat) (env : Nat → FetchResult)
    (i rem : Nat) (st : Store) (ds : List Nat)
    (h : attemptRaises (env i) = false) :
    retryLoop base env i rem st ds =
      ⟨attemptResultOf (env i), (attemptOnce (env i) st).2, i + 1, ds⟩ := by
  cases hres : attemptResultOf (env i) with
  | error e => simp [attemptRaises, hres] at h
  | ok r =>
    have hao := attemptOnce_eta (env i) st
    rw [hres] at hao
    cases rem <;>
      · show (match attemptOnce (env i) st with
          | (.ok rr, st2) => (⟨.ok rr, st2, i + 1, ds⟩ : RetryRun)
          | (.error _, st2) => _) = _
        rw [hao]

theorem retryLoop_step_raise (base : Nat) (env : Nat → FetchResult)
    (i r : Nat) (st : Store) (ds : List Nat)
    (h : attemptRaises (env i) = true) :
    retryLoop base env i (r + 1) st ds =
      retryLoop base env (i + 1) r st (ds ++ [base * 2 ^ i]) := by
  show (match attemptOnce (env i) st with
      | (.ok rr, st2) => (⟨.ok rr, st2, i + 1, ds⟩ : RetryRun)
      | (.error _, st2) =>
        retryLoop base env (i + 1) r st2 (ds ++ [base * 2 ^ i])) = _
  rw [attemptOnce_raise (env i) st h]

theorem retryLoop_step_exhaust (base : Nat) (env : Nat → FetchResult)
    (i : Nat) (st : Store) (ds : List Nat)
    (h : attemptRaises (env i) = true) :
    retryLoop base env i 0 st ds = ⟨.error (), st, i + 1, ds⟩ := by
  show (match attemptOnce (env i) st with
      | (.ok r, st2) => (⟨.ok r, st2, i + 1, ds⟩ : RetryRun)
      | (.error _, st2) => (⟨.error (), st2, i + 1, ds⟩ : RetryRun)) = _
  rw [attemptOnce_raise (env i) st h]

theorem store_eq_of_fields (a b : Store)
    (h1 : a.current_data = b.current_data)
    (h2 : a.ingestion_success_total = b.ingestion_success_total)
    (h3 : a.ingestion_failure_total = b.ingestion_failure_total)
    (h4 : a.is_ready = b.is_ready) : a = b := by
  cases a
  cases b
  simp_all

theorem retryLoop_store (base : Nat) (env : Nat → FetchResult) :
    ∀ (rem i : Nat) (st : Store) (ds : List Nat),
      (retryLoop base env i rem st ds).store.current_data = st.current_data ∧
      (retryLoop base env i rem st ds).store.is_ready = st.is_ready ∧
      (retryLoop base env i rem st ds).store.ingestion_success_total =
        st.ingestion_success_total ∧
      (retryLoop base env i rem st ds).store.ingestion_failure_total =
        st.ingestion_failure_total +
          failBump (retryLoop base env i rem st ds).result := by
  intro rem
  induction rem with
  | zero =>
    intro i st ds
    cases hr : attemptRaises (env i) with
    | true =>
      rw [retryLoop_step_exhaust base env i st ds hr]
      simp [failBump]
    | false =>
      rw [retryLoop_step_ok base env i 0 st ds hr]
      cases henv : env i with
      | netErr => rw [henv] at hr; simp [attemptRaises, attemptResultOf] at hr
      | payload body =>
        rw [henv] at hr
        cases hp : parse_csv_data body with
        | ok m => simp [attemptOnce, attemptResultOf, hp, failBump, henv]
        | error e =>
          cases e with
          | schemaError => simp [attemptOnce, attemptResultOf, hp, failBump, henv]
          | rowShapeError => simp [attemptOnce, attemptResultOf, hp, failBump, henv]
          | csvError => simp [attemptRaises, attemptResultOf, hp] at hr
  | succ r ih =>
    intro i st ds
    cases hr : attemptRaises (env i) with
    | true =>
      rw [retryLoop_step_raise base env i r st ds hr]
      exact ih (i + 1) st (ds ++ [base * 2 ^ i])
    | false =>
      rw [retryLoop_step_ok base env i (r + 1) st ds hr]
      cases henv : env i with
      | netErr => rw [henv] at hr; simp [attemptRaises, attemptResultOf] at hr
      | payload body =>
        rw [henv] at hr
        cases hp : parse_csv_data body with
        | ok m => simp [attemptOnce, attemptResultOf, hp, failBump, henv]
        | error e =>
          cases e with
          | schemaError => simp [attemptOnce, attemptResultOf, hp, failBump, henv]
          | rowShapeError => simp [attemptOnce, attemptResultOf, hp, failBump, henv]
          | csvError => simp [attemptRaises, attemptResultOf, hp] at hr

theorem retryLoop_result_indep (base : Nat) (env : Nat → FetchResult) :
    ∀ (rem i : Nat) (st st' : Store) (ds ds' : List Nat),
      (retryLoop base env i rem st ds).result =
        (retryLoop base env i rem st' ds').result := by
  intro rem
  induction rem with
  | zero =>
    intro i st st' ds ds'
    cases hr : attemptRaises (env i) with
    | true =>
      rw [retryLoop_step_exhaust base env i st ds hr,
        retryLoop_step_exhaust base env i st' ds' hr]
    | false =>
      rw [retryLoop_step_ok base env i 0 st ds hr,
        retryLoop_step_ok base env i 0 st' ds' hr]
  | succ r ih =>
    intro i st st' ds ds'
    cases hr : attemptRaises (env i) with
    | true =>
      rw [retryLoop_step_raise base env i r st ds hr,
        retryLoop_step_raise base env i r st' ds' hr]
      exact ih (i + 1) st st' (ds ++ [base * 2 ^ i]) (ds' ++ [base * 2 ^ i])
    | false =>
      rw [retryLoop_step_ok base env i (r + 1) st ds hr,
        retryLoop_step_ok base env i (r + 1) st' ds' hr]

theorem retryLoop_first_ok (base : Nat) (env : Nat → FetchResult) :
    ∀ (j i rem : Nat) (st : Store) (ds : List Nat),
      (∀ t, t < j → attemptRaises (env (i + t)) = true) → j ≤ rem →
      attemptRaises (env (i + j)) = false →
      (retryLoop base env i rem st ds).result = attemptResultOf (env (i + j)) ∧
      (retryLoop base env i rem st ds).attempts = i + j + 1 ∧
      (retryLoop base env i rem st ds).delays =
        ds ++ (List.range j).map (fun t => base * 2 ^ (i + t)) := by
  intro j
  induction j with
  | zero =>
    intro i rem st ds _ _ hne
    rw [Nat.add_zero] at hne
    rw [retryLoop_step_ok base env i rem st ds hne]
    simp
  | succ j ih =>
    intro i rem st ds hpre hle hne
    have h0 : attemptRaises (env i) = true := by
      have := hpre 0 (Nat.succ_pos j)
      simpa using this
    cases rem with
    | zero => omega
    | succ r =>
      rw [retryLoop_step_raise base env i r st ds h0]
      have hpre' : ∀ t, t < j → attemptRaises (env (i + 1 + t)) = true := by
        intro t ht
        have := hpre (t + 1) (by omega)
        have harith : i + (t + 1) = i + 1 + t := by omega
        rwa [harith] at this
      have hne' : attemptRaises (env (i + 1 + j)) = false := by
        have harith : i + 1 + j = i + (j + 1) := by omega
        rwa [harith]
      obtain ⟨h1, h2, h3⟩ := ih (i + 1) r st (ds ++ [base * 2 ^ i]) hpre'
        (by omega) hne'
      have harith2 : i + 1 + j = i + (j + 1) := by omega
      refine ⟨?_, ?_, ?_⟩
      · rw [h1, harith2]
      · rw [h2]
        omega
      · rw [h3]
        have hmap : (List.range (j + 1)).map (fun t => base * 2 ^ (i + t)) =
            (base * 2 ^ i) :: (List.range j).map (fun t => base * 2 ^ (i + 1 + t)) := by
          rw [List.range_succ_eq_map, List.map_cons, List.map_map]
          have htl : ((fun t => base * 2 ^ (i + t)) ∘ Nat.succ) =
              (fun t => base * 2 ^ (i + 1 + t)) := by
            funext t
            show base * 2 ^ (i + (t + 1)) = base * 2 ^ (i + 1 + t)
            have harith3 : i + (t + 1) = i + 1 + t := by omega
            rw [harith3]
          rw [Nat.add_zero, htl]
        rw [hmap]
        simp

theorem retryLoop_exhaust (base : Nat) (env : Nat → FetchResult) :
    ∀ (rem i : Nat) (st : Store) (ds : List Nat),
      (∀ t, t ≤ rem → attemptRaises (env (i + t)) = true) →
      (retryLoop base env i rem st ds).result = .error () ∧
      (retryLoop base env i rem st ds).attempts = i + rem + 1 ∧
      (retryLoop base env i rem st ds).delays =
        ds ++ (List.range rem).map (fun t => base * 2 ^ (i + t)) := by
  intro rem
  induction rem with
  | zero =>
    intro i st ds hpre
    have h0 : attemptRaises (env i) = true := by simpa using hpre 0 le_rfl
    rw [retryLoop_step_exhaust base env i st ds h0]
    simp
  | succ r ih =>
    intro i st ds hpre
    have h0 : attemptRaises (env i) = true := by
      simpa using hpre 0 (Nat.zero_le _)
    rw [retryLoop_step_raise base env i r st ds h0]
    have hpre' : ∀ t, t ≤ r → attemptRaises (env (i + 1 + t)) = true := by
      intro t ht
      have := hpre (t + 1) (by omega)
      have harith : i + (t + 1) = i + 1 + t := by omega
      rwa [harith] at this
    obtain ⟨h1, h2, h3⟩ := ih (i + 1) st (ds ++ [base * 2 ^ i]) hpre'
    refine ⟨h1, ?_, ?_⟩
    · rw [h2]
      omega
    · rw [h3]
      have hmap : (List.range (r + 1)).map (fun t => base * 2 ^ (i + t)) =
          (base * 2 ^ i) :: (List.range r).map (fun t => base * 2 ^ (i + 1 + t)) := by
        rw [List.range_succ_eq_map, List.map_cons, List.map_map]
        have htl : ((fun t => base * 2 ^ (i + t)) ∘ Nat.succ) =
            (fun t => base * 2 ^ (i + 1 + t)) := by
          funext t
          show base * 2 ^ (i + (t + 1)) = base * 2 ^ (i + 1 + t)
          have harith3 : i + (t + 1) = i + 1 + t := by omega
          rw [harith3]
        rw [Nat.add_zero, htl]
      rw [hmap]
      simp

theorem fetch_store_fields (env : Nat → FetchResult) (st : Store) :
    (fetch_and_parse_telemetry env st).store.current_data = st.current_data ∧
    (fetch_and_parse_telemetry env st).store.is_ready = st.is_ready ∧
    (fetch_and_parse_telemetry env st).store.ingestion_success_total =
      st.ingestion_success_total ∧
    (fetch_and_parse_telemetry env st).store.ingestion_failure_total =
      st.ingestion_failure_total +
        failBump (fetch_and_parse_telemetry env st).result :=
  retryLoop_store BACKOFF_BASE env RETRIES 0 st []

theorem fetch_result_indep (env : Nat → FetchResult) (st st' : Store) :
    (fetch_and_parse_telemetry env st).result =
      (fetch_and_parse_telemetry env st').result :=
  retryLoop_result_indep BACKOFF_BASE env RETRIES 0 st st' [] []

theorem runCycleLoop_eq (env : Nat → FetchResult) (st : Store) :
    runCycleLoop env st =
      match (fetch_and_parse_telemetry env st).result with
      | .error _ => (fetch_and_parse_telemetry env st).store
      | .ok none => (fetch_and_parse_telemetry env st).store
      | .ok (some m) =>
        { (fetch_and_parse_telemetry env st).store with
          current_data := m
          ingestion_success_total :=
            (fetch_and_parse_telemetry env st).store.ingestion_success_total + 1 } := rfl

theorem runCycleInitial_eq (env : Nat → FetchResult) (st : Store) :
    runCycleInitial env st =
      match (fetch_and_parse_telemetry env st).result with
      | .error _ => .error ()
      | .ok none => .ok (fetch_and_parse_telemetry env st).store
      | .ok (some m) =>
        if m ≠ [] then
          .ok { (fetch_and_parse_telemetry env st).store with
                current_data := m, is_ready := true }
        else .ok (fetch_and_parse_telemetry env st).store := rfl

theorem runCycleLoop_is_ready (env : Nat → FetchResult) (st : Store) :
    (runCycleLoop env st).is_ready = st.is_ready := by
  obtain ⟨hd, hr, hsuc, hfail⟩ := fetch_store_fields env st
  rw [runCycleLoop_eq]
  cases hres : (fetch_and_parse_telemetry env st).result with
  | error e => exact hr
  | ok o =>
    cases o with
    | none => exact hr
    | some m => exact hr

theorem runCycleLoop_not_publish (env : Nat → FetchResult) (st : Store)
    (h : cyclePublishes env = false) :
    (runCycleLoop env st).current_data = st.current_data := by
  obtain ⟨hd, hr, hsuc, hfail⟩ := fetch_store_fields env st
  rw [runCycleLoop_eq]
  cases hres : (fetch_and_parse_telemetry env st).result with
  | error e => exact hd
  | ok o =>
    cases o with
    | none => exact hd
    | some m =>
      exfalso
      have hind := fetch_result_indep env st Store.init
      rw [hres] at hind
      unfold cyclePublishes at h
      rw [← hind] at h
      simp at h

theorem runLoop_is_ready :
    ∀ (n : Nat) (envs : Nat → Nat → FetchResult) (st : Store),
      (runLoop envs n st).is_ready = st.is_ready := by
  intro n
  induction n with
  | zero => intro envs st; rfl
  | succ n ih =>
    intro envs st
    show (runLoop (fun k => envs (k + 1)) n
      (runCycleLoop (envs 0) st)).is_ready = st.is_ready
    rw [ih, runCycleLoop_is_ready]

theorem runLoop_data :
    ∀ (n : Nat) (envs : Nat → Nat → FetchResult) (st : Store),
      (∀ i, i < n → cyclePublishes (envs i) = false) →
      (runLoop envs n st).current_data = st.current_data := by
  intro n
  induction n with
  | zero => intro envs st _; rfl
  | succ n ih =>
    intro envs st h
    show (runLoop (fun k => envs (k + 1)) n
      (runCycleLoop (envs 0) st)).current_data = st.current_data
    rw [ih _ _ (fun i hi => h (i + 1) (by omega)),
      runCycleLoop_not_publish _ _ (h 0 (by omega))]

theorem runCycleInitial_spec (env : Nat → FetchResult) (st₀ : Store)
    (h : runCycleInitial env Store.init = .ok st₀) :
    st₀.is_ready = initialPublishes env ∧
    (initialPublishes env = false → st₀.current_data = []) := by
  obtain ⟨hd, hr, hsuc, hfail⟩ := fetch_store_fields env Store.init
  rw [runCycleInitial_eq] at h
  unfold initialPublishes
  cases hres : (fetch_and_parse_telemetry env Store.init).result with
  | error e => rw [hres] at h; simp at h
  | ok o =>
    cases o with
    | none =>
      rw [hres] at h
      have hst : (fetch_and_parse_telemetry env Store.init).store = st₀ :=
        Except.ok.inj h
      rw [← hst]
      exact ⟨hr, fun _ => hd⟩
    | some m =>
      rw [hres] at h
      have h' : (if m ≠ [] then
          (Except.ok { (fetch_and_parse_telemetry env Store.init).store with
            current_data := m, is_ready := true } : Except Unit Store)
        else Except.ok (fetch_and_parse_telemetry env Store.init).store) =
          Except.ok st₀ := h
      by_cases hm : m = []
      · rw [if_neg (by simp [hm])] at h'
        have hst : (fetch_and_parse_telemetry env Store.init).store = st₀ :=
          Except.ok.inj h'
        rw [← hst]
        refine ⟨?_, fun _ => hd⟩
        show (fetch_and_parse_telemetry env Store.init).store.is_ready =
          decide (m ≠ [])
        rw [hr]
        subst hm
        rfl
      · rw [if_pos hm] at h'
        have hst := Except.ok.inj h'
        rw [← hst]
        constructor
        · show true = decide (m ≠ [])
          rw [decide_eq_true hm]
        · intro hfalse
          have hfalse' : decide (m ≠ []) = false := hfalse
          exact absurd hm (of_decide_eq_false hfalse')

/-! ### Claims C1 to C6 — readiness, worker lifecycle, retries, API reads -/

/-- Claim C1, counterexample: the startup cycle fails on a bad payload, the
first periodic cycle publishes a non-empty snapshot (the success counter
becomes 1 and the snapshot is served), yet `is_ready` is still `false` —
the loop never sets it, refuting the claim that the flag turns true on the
first successful publish wherever it happens. -/
theorem c1_counterexample :
    runTask (fun _ => .payload "bad_header\nx")
      (fun _ _ => .payload "switch_id,m\nA,1") 1 =
      .ok { current_data := [("A", [("m", "1")])]
            ingestion_success_total := 1
            ingestion_failure_total := 1
            is_ready := false } := rfl

/-- Claim C1 (amended): after the initial load and any number of periodic
cycles, `is_ready` equals exactly the startup-cycle outcome — true if and
only if the startup cycle returned a truthy (non-empty) snapshot; it is
set at most once, never reverts, and successful publishes on later
periodic cycles never set it. -/
theorem c1_amended (envInit : Nat → FetchResult)
    (envs : Nat → Nat → FetchResult) (n : Nat) (st : Store)
    (h : runTask envInit envs n = .ok st) :
    st.is_ready = initialPublishes envInit := by
  unfold runTask at h
  cases hinit : runCycleInitial envInit Store.init with
  | error e => rw [hinit] at h; simp at h
  | ok st₀ =>
    rw [hinit] at h
    have hst : runLoop envs n st₀ = st := Except.ok.inj h
    rw [← hst, runLoop_is_ready]
    exact (runCycleInitial_spec envInit st₀ hinit).1

/-- Claim C1, witness: a startup cycle that publishes a non-empty snapshot
leaves the flag true, matching the startup-outcome predicate. -/
theorem c1_witness :
    ({ current_data := [("A", [("m", "1")])]
       ingestion_success_total := 0
       ingestion_failure_total := 0
       is_ready := true } : Store).is_ready =
      initialPublishes (fun _ => .payload "switch_id,m\nA,1") :=
  c1_amended (fun _ => .payload "switch_id,m\nA,1") (fun _ _ => .netErr) 0 _ rfl

/-- Claim C2, evidence of the code bug: when every attempt of the startup
cycle raises a NetworkError-class exception, the re-raised exception
propagates out of `ingestion_task` (the initial call is not wrapped in a
try/except) and the background worker terminates — the periodic loop
never runs, for any number of scheduled iterations. -/
theorem c2_thm :
    runTask (fun _ => .netErr) (fun _ _ => .netErr) 5 = .error () := rfl

/-- Claim C3, counterexample: on the freshly created store (no snapshot
ever published), `ListMetrics` returns a successful response with the
empty snapshot rather than a 503 Unavailable error; only `/health`
reports 503. -/
theorem c3_counterexample :
    list_metrics Store.init = .ok [] ∧
    health_check Store.init =
      .errResp 503 "Service Unavailable: Initial data loading." := ⟨rfl, rfl⟩

/-- Claim C3 (amended): before any snapshot has ever been published —
the startup cycle did not publish and no periodic cycle published — the
full-snapshot read returns success with the empty mapping (not a 503);
the 503 service-unavailable gating exists only on the health endpoint. -/
theorem c3_amended (envInit : Nat → FetchResult)
    (envs : Nat → Nat → FetchResult) (n : Nat) (st : Store)
    (h : runTask envInit envs n = .ok st)
    (hinitp : initialPublishes envInit = false)
    (hloop : ∀ i, i < n → cyclePublishes (envs i) = false) :
    list_metrics st = .ok [] ∧
    health_check st = .errResp 503 "Service Unavailable: Initial data loading." := by
  unfold runTask at h
  cases hinit : runCycleInitial envInit Store.init with
  | error e => rw [hinit] at h; simp at h
  | ok st₀ =>
    rw [hinit] at h
    have hst : runLoop envs n st₀ = st := Except.ok.inj h
    obtain ⟨hready0, hdata0⟩ := runCycleInitial_spec envInit st₀ hinit
    have hready : st.is_ready = false := by
      rw [← hst, runLoop_is_ready, hready0, hinitp]
    have hdata : st.current_data = [] := by
      rw [← hst, runLoop_data n envs st₀ hloop, hdata0 hinitp]
    constructor
    · unfold list_metrics
      rw [hdata]
    · simp [health_check, hready]

/-- Claim C3, witness: a run whose startup cycle hits a schema error and
whose one periodic cycle exhausts its retries serves the empty snapshot
with success while health reports 503. -/
theorem c3_witness :
    list_metrics (⟨[], 0, 1, false⟩ : Store) = .ok [] ∧
    health_check (⟨[], 0, 1, false⟩ : Store) =
      .errResp 503 "Service Unavailable: Initial data loading." :=
  c3_amended (fun _ => .payload "bad_header\nx") (fun _ _ => .netErr) 1 _
    rfl rfl (by decide)

/-- Claim C4, counterexample: with entity `A` holding metrics `bw` and
`lat`, the absent-metric request and the absent-entity request receive the
same generic 404 plain-text response `Metric not found` — there is no
entity-not-found versus metric-not-found variant and no payload
enumerating `A`-s actual metric names. -/
theorem c4_counterexample :
    get_metric (⟨[("A", [("bw", "1.0"), ("lat", "2.0")])], 0, 0, true⟩ : Store)
        "A" "missing" =
      .errResp 404 "Metric not found" ∧
    get_metric (⟨[("A", [("bw", "1.0"), ("lat", "2.0")])], 0, 0, true⟩ : Store)
        "ZZ" "bw" =
      .errResp 404 "Metric not found" := ⟨rfl, rfl⟩

/-- Claim C4 (amended): whenever the entity is absent from the current
snapshot, or the entity is present but the metric name is absent for it,
`GetMetric` returns the single generic 404 response `Metric not found`,
with no variant distinction and no enumeration of the entity-s metric
names. -/
theorem c4_amended (st : Store) (sid mid : String)
    (h : st.current_data.lookup sid = none ∨
         ∃ ms, st.current_data.lookup sid = some ms ∧ ms.lookup mid = none) :
    get_metric st sid mid = .errResp 404 "Metric not found" := by
  unfold get_metric
  rcases h with h | ⟨ms, h1, h2⟩
  · rw [h]
    rfl
  · rw [h1]
    show (match ms.lookup mid with
      | none => ApiResult.errResp 404 "Metric not found"
      | some v => ApiResult.ok (MetricResponse.mk sid mid v)) = _
    rw [h2]

/-- Claim C4, witness: an existing entity with an absent metric name gets
the generic 404. -/
theorem c4_witness :
    get_metric (⟨[("A", [("bw", "1.0")])], 0, 0, true⟩ : Store) "A" "lat" =
      .errResp 404 "Metric not found" :=
  c4_amended _ "A" "lat" (Or.inr ⟨[("bw", "1.0")], rfl, rfl⟩)

/-- Claim C5, counterexample: a steady-state cycle whose every attempt
raises a NetworkError-class exception fails after exhausting retries, yet
leaves the store completely unchanged — in particular
`ingestion_failure_total` is NOT incremented, refuting the claim that
every failed cycle increments the failure counter. -/
theorem c5_counterexample :
    (fetch_and_parse_telemetry (fun _ => .netErr) Store.init).result =
      .error () ∧
    runCycleLoop (fun _ => .netErr) Store.init = Store.init := ⟨rfl, rfl⟩

/-- Claim C5 (amended): a failed steady-state cycle never publishes — the
snapshot is unchanged; the failure counter is incremented exactly when the
failure is a parse or validation `ValueError` (the body returned `None`),
and stays unchanged when the cycle fails by a NetworkError-class exception
after exhausting retries (the exception is swallowed without counting). -/
theorem c5_amended (env : Nat → FetchResult) (st : Store) :
    ((fetch_and_parse_telemetry env st).result = .error () →
      runCycleLoop env st = st) ∧
    ((fetch_and_parse_telemetry env st).result = .ok none →
      (runCycleLoop env st).current_data = st.current_data ∧
      (runCycleLoop env st).ingestion_failure_total =
        st.ingestion_failure_total + 1 ∧
      (runCycleLoop env st).ingestion_success_total =
        st.ingestion_success_total) := by
  obtain ⟨hd, hr, hsuc, hfail⟩ := fetch_store_fields env st
  constructor
  · intro hres
    rw [runCycleLoop_eq, hres]
    rw [hres] at hfail
    exact store_eq_of_fields _ _ hd hsuc hfail hr
  · intro hres
    rw [runCycleLoop_eq, hres]
    rw [hres] at hfail
    exact ⟨hd, hfail, hsuc⟩

/-- Claim C5, witness: the no-publish conclusion applied to the cycle
whose every attempt is a network failure. -/
theorem c5_witness :
    runCycleLoop (fun _ => FetchResult.netErr) Store.init = Store.init :=
  (c5_amended (fun _ => FetchResult.netErr) Store.init).1 rfl

/-- Claim C6, counterexample: the payload `switch_id,m` with rows `A,1` and
`B,2` separated by a bare carriage return makes `parse_csv_data` raise
`csv.Error`; the except-ValueError handler in the fetch body does not
catch it, so the catch-all retry decorator retries this parse failure like
a network failure — with base 1 and three retries the run makes four
attempts, sleeps the delays 1, 2, 4 and re-raises — refuting the claim
that only NetworkError-class failures are retried and that parse failures
make the cycle report failure immediately. -/
theorem c6_counterexample :
    parse_csv_data "switch_id,m\nA,1\rB,2" = .error .csvError ∧
    (retryLoop 1 (fun _ => .payload "switch_id,m\nA,1\rB,2") 0 3
        Store.init []).result = .error () ∧
    (retryLoop 1 (fun _ => .payload "switch_id,m\nA,1\rB,2") 0 3
        Store.init []).attempts = 4 ∧
    (retryLoop 1 (fun _ => .payload "switch_id,m\nA,1\rB,2") 0 3
        Store.init []).delays = [1, 2, 4] := ⟨rfl, rfl, rfl, rfl⟩

/-- Claim C6 (amended): within one cycle the decorator retries exactly the
attempts that raise — the NetworkError-class failures AND the payloads on
which `parse_csv_data` raises the uncaught `csv.Error`; only the
`ValueError` parse failures (`SchemaError`, `RowShapeError`) are returned
as `None` without a retry.  If the first `j` attempts raise and attempt
`j` does not, the wrapper makes `j + 1` attempts with the backoff delays
`base * 2 ^ 0, …, base * 2 ^ (j - 1)` — that is, `base * 2 ^ (k - 2)`
before attempt `k` — and if all `retries + 1` allowed attempts raise, it
re-raises after exactly `retries + 1` attempts and `retries` delays of the
same shape. -/
theorem c6_amended (base retries : Nat) (env : Nat → FetchResult)
    (st : Store) (j : Nat)
    (hpre : ∀ t, t < j → attemptRaises (env t) = true) :
    (∀ fr, attemptRaises fr = true ↔
      fr = .netErr ∨ ∃ body, fr = .payload body ∧
        parse_csv_data body = .error .csvError) ∧
    (j ≤ retries → attemptRaises (env j) = false →
      (retryLoop base env 0 retries st []).result = attemptResultOf (env j) ∧
      (retryLoop base env 0 retries st []).attempts = j + 1 ∧
      (retryLoop base env 0 retries st []).delays =
        (List.range j).map (fun t => base * 2 ^ t)) ∧
    (j = retries + 1 →
      (retryLoop base env 0 retries st []).result = .error () ∧
      (retryLoop base env 0 retries st []).attempts = retries + 1 ∧
      (retryLoop base env 0 retries st []).delays =
        (List.range retries).map (fun t => base * 2 ^ t)) := by
  refine ⟨attemptRaises_iff, ?_, ?_⟩
  · intro hle hne
    have h := retryLoop_first_ok base env j 0 retries st []
      (by simpa using hpre) hle (by simpa using hne)
    simpa using h
  · intro hj
    have hpre2 : ∀ t, t ≤ retries → attemptRaises (env (0 + t)) = true := by
      intro t ht
      simpa using hpre t (by omega)
    have h := retryLoop_exhaust base env retries 0 st [] hpre2
    simpa using h

/-- Claim C6, witness: base 2, three retries, two network failures then a
good payload — three attempts, delays 2 and 4. -/
theorem c6_witness :
    (retryLoop 2 (fun i => if i < 2 then FetchResult.netErr
        else FetchResult.payload "switch_id,m\nA,1") 0 3 Store.init []).result =
      .ok (some [("A", [("m", "1")])]) ∧
    (retryLoop 2 (fun i => if i < 2 then FetchResult.netErr
        else FetchResult.payload "switch_id,m\nA,1") 0 3 Store.init []).attempts = 3 ∧
    (retryLoop 2 (fun i => if i < 2 then FetchResult.netErr
        else FetchResult.payload "switch_id,m\nA,1") 0 3 Store.init []).delays =
      [2, 4] := by
  have h := ((c6_amended 2 3 (fun i => if i < 2 then FetchResult.netErr
    else FetchResult.payload "switch_id,m\nA,1") Store.init 2
    (by decide)).2).1 (by omega) (by decide)
  exact ⟨h.1.trans rfl, h.2.1, h.2.2.trans rfl⟩

end TelemetryAggregator
